import Mathlib

set_option maxRecDepth 8000

/-!
Verification of the HTTP request layer of the React18-Admin repository:
the de-duplicating, cancellable request client (`AxiosRequest` in
`packages/request/src/request.ts`) and the interceptor set installed by
`creteRequest` in `packages/request/src/index.ts`.

The embedding is shallow: JavaScript objects become association lists in
insertion order, the `AbortController` registry becomes an explicit
`Registry` state record, browser/global side effects (local storage,
notifier, console, location) become an explicit `Env` record, and the
promise-interceptor chain becomes explicit function composition following
the axios semantics (`promise.then(onFulfilled, onRejected)` chaining, in
which a value RETURNED by a rejection handler resolves the chain).
-/

namespace ReqClient

/-- Decidable equality of `Except` values, needed to evaluate the de-dup
stage on concrete inputs. -/
instance {ε α : Type} [DecidableEq ε] [DecidableEq α] : DecidableEq (Except ε α)
  | .error e1, .error e2 =>
    if h : e1 = e2 then .isTrue (by rw [h])
    else .isFalse (by intro hc; cases hc; exact h rfl)
  | .error _, .ok _ => .isFalse (by intro hc; cases hc)
  | .ok _, .error _ => .isFalse (by intro hc; cases hc)
  | .ok a1, .ok a2 =>
    if h : a1 = a2 then .isTrue (by rw [h])
    else .isFalse (by intro hc; cases hc; exact h rfl)

/-- A JavaScript primitive value as it can appear as a query-parameter value
or as a (flat) JSON body value; `jvalToString` is the template-literal
string coercion applied by the fingerprint builder. -/
inductive JVal where
  | str (s : String)
  | num (n : Int)
  | boolean (b : Bool)
  | null
deriving DecidableEq, Repr

/-- JavaScript template-literal coercion of a primitive value. -/
def jvalToString : JVal → String
  | .str s => s
  | .num n => toString n
  | .boolean b => if b then "true" else "false"
  | .null => "null"

/-- Lookup in a JavaScript object / `Map` modelled as an association list
(insertion order, unique keys); `undefined` becomes `none`. -/
def objGet {α : Type} : List (String × α) → String → Option α
  | [], _ => none
  | p :: ps, k => if p.1 = k then some p.2 else objGet ps k

/-- Deletion of a key from a JavaScript object / `Map`. -/
def objDelete {α : Type} : List (String × α) → String → List (String × α)
  | [], _ => []
  | p :: ps, k => if p.1 = k then objDelete ps k else p :: objDelete ps k

/-- `Map.set` / property assignment: overwrite in place when the key is
present (keeping its position, as JavaScript does), append otherwise. -/
def objSet {α : Type} : List (String × α) → String → α → List (String × α)
  | [], k, v => [(k, v)]
  | p :: ps, k, v => if p.1 = k then (k, v) :: ps else p :: objSet ps k v

/-! ### A model of `JSON.parse` on the fragment the fingerprint stage uses

The source calls the runtime function `JSON.parse` on the request body and then
iterates the top-level keys of the resulting object.  We model `JSON.parse`
on the fragment actually exercised by the fingerprint stage: a single flat
object whose keys are escape-free string literals and whose values are
escape-free strings, integer numerals, `true`, `false` or `null`.  Inputs
outside this fragment are rejected (`none`), exactly as `JSON.parse`
rejects every input our counterexamples use. -/

/-- Skip JSON insignificant whitespace. -/
def skipWs : List Char → List Char
  | c :: cs => if c = ' ' ∨ c = '\t' ∨ c = '\n' ∨ c = '\r' then skipWs cs else c :: cs
  | [] => []

/-- Consume the characters of a string literal up to the closing quote
(escape sequences are outside the modelled fragment). -/
def strChars : List Char → Option (List Char × List Char)
  | [] => none
  | c :: cs =>
    if c = '"' then some ([], cs)
    else if c = '\\' then none
    else (strChars cs).map (fun r => (c :: r.1, r.2))

/-- Parse a JSON string literal (with its opening quote). -/
def parseStringLit : List Char → Option (String × List Char)
  | '"' :: cs => (strChars cs).map (fun r => (String.mk r.1, r.2))
  | _ => none

/-- Take the maximal run of decimal digits. -/
def takeDigits : List Char → List Char × List Char
  | c :: cs =>
    if c.isDigit then
      let r := takeDigits cs
      (c :: r.1, r.2)
    else ([], c :: cs)
  | [] => ([], [])

/-- Numeric value of a digit run. -/
def digitsToNat : List Char → Nat :=
  List.foldl (fun acc c => 10 * acc + (c.toNat - 48)) 0

/-- Parse a JSON integer numeral (optional minus sign, no leading zeros,
no fraction or exponent in the modelled fragment). -/
def parseNumberLit (cs : List Char) : Option (Int × List Char) :=
  let neg := cs.head? = some '-'
  let cs1 := if neg then cs.tail else cs
  let r := takeDigits cs1
  match r.1 with
  | [] => none
  | d :: ds =>
    if d = '0' ∧ ds ≠ [] then none
    else
      let n : Int := Int.ofNat (digitsToNat (d :: ds))
      some (if neg then -n else n, r.2)

/-- Parse a JSON value of the modelled fragment. -/
def parseValue : List Char → Option (JVal × List Char)
  | '"' :: cs => (parseStringLit ('"' :: cs)).map (fun r => (JVal.str r.1, r.2))
  | 't' :: 'r' :: 'u' :: 'e' :: cs => some (JVal.boolean true, cs)
  | 'f' :: 'a' :: 'l' :: 's' :: 'e' :: cs => some (JVal.boolean false, cs)
  | 'n' :: 'u' :: 'l' :: 'l' :: cs => some (JVal.null, cs)
  | cs => (parseNumberLit cs).map (fun r => (JVal.num r.1, r.2))

/-- Parse one `"key" : value` member. -/
def parseMember (cs : List Char) : Option ((String × JVal) × List Char) :=
  match parseStringLit (skipWs cs) with
  | none => none
  | some (k, rest) =>
    match skipWs rest with
    | ':' :: rest2 =>
      match parseValue (skipWs rest2) with
      | none => none
      | some (v, rest3) => some ((k, v), rest3)
    | _ => none

/-- Parse a comma-separated member list (fuel-bounded recursion). -/
def parseMembers : Nat → List Char → Option (List (String × JVal) × List Char)
  | 0, _ => none
  | fuel + 1, cs =>
    match parseMember cs with
    | none => none
    | some (kv, rest) =>
      match skipWs rest with
      | ',' :: rest2 =>
        (parseMembers fuel rest2).map (fun r => (kv :: r.1, r.2))
      | rest2 => some ([kv], rest2)

/-- Rebuild the parsed members as a JavaScript object: a later duplicate
key overwrites the earlier value but keeps the first insertion position,
so key iteration visits each key once. -/
def objFromPairs (l : List (String × JVal)) : List (String × JVal) :=
  l.foldl (fun acc kv => objSet acc kv.1 kv.2) []

/-- Model of `JSON.parse` on the flat-object fragment: `none` models the
`SyntaxError` throw. -/
def jsonParse (s : String) : Option (List (String × JVal)) :=
  match skipWs s.toList with
  | '{' :: rest =>
    match skipWs rest with
    | '}' :: tail => if skipWs tail = [] then some [] else none
    | body =>
      match parseMembers (body.length + 1) body with
      | none => none
      | some (kvs, rem) =>
        match skipWs rem with
        | '}' :: tail => if skipWs tail = [] then some (objFromPairs kvs) else none
        | _ => none
  | _ => none

/-! ### Fingerprint construction (global request interceptor of `AxiosRequest`) -/

/-- A request body as the interceptor can see it: a string, or a plain
object (axios serializes objects only after the request interceptors ran,
so an object body fails the first-character check and contributes
nothing). -/
inductive BodyVal where
  | jsStr (s : String)
  | jsObj
deriving DecidableEq, Repr

/-- The `res.data && res.data[0] === "\x7b" && res.data[res.data.length - 1]
=== "\x7d"` test: a non-empty string body whose first character is a left
brace and whose last character is a right brace ("" is falsy). -/
def isBraceWrapped (s : String) : Bool :=
  match s.toList with
  | [] => false
  | c :: cs => c = '{' ∧ (c :: cs).getLast? = some '}'

/-- The exception a failing `JSON.parse` throws. -/
inductive JsError where
  | syntaxError
deriving DecidableEq, Repr

/-- Append one `sep ++ key ++ "=" ++ value` segment per pair, as the
`for(const key in …)` loops of the interceptor do. -/
def appendSegs (sep : String) (l : List (String × JVal)) (acc : String) : String :=
  l.foldl (fun acc kv => acc ++ sep ++ kv.1 ++ "=" ++ jvalToString kv.2) acc

/-- The `if (res.url) url += "^" + res.url` statement of the
interceptor. -/
def urlStage (url : Option String) (fp : String) : String :=
  match url with
  | some u => if u ≠ "" then fp ++ "^" ++ u else fp
  | none => fp

/-- The `if (res.params) for (const key in res.params) url += …`
statement of the interceptor. -/
def paramStage (params : Option (List (String × JVal))) (fp : String) : String :=
  match params with
  | some ps => appendSegs "&" ps fp
  | none => fp

/-- The JSON-body statement of the interceptor: when the body is a truthy
brace-wrapped string, `JSON.parse` it (a failure throws, modelled as
`Except.error`) and append one `#key=value` per top-level key. -/
def bodyStage (data : Option BodyVal) (fp : String) : Except JsError String :=
  match data with
  | some (.jsStr s) =>
    if isBraceWrapped s then
      match jsonParse s with
      | some kvs => .ok (appendSegs "#" kvs fp)
      | none => .error .syntaxError
    else .ok fp
  | _ => .ok fp

/-- The fingerprint computation of the global request interceptor
(`request.ts`): start from `res.method || ""`, then run the url, params
and body statements in source order. -/
def buildFingerprint (method : Option String) (url : Option String)
    (params : Option (List (String × JVal))) (data : Option BodyVal) :
    Except JsError String :=
  bodyStage data (paramStage params (urlStage url (method.getD "")))

/-- The method normalization axios itself performs before any interceptor
runs: `config.method = (config.method || this.defaults.method ||
"get").toLowerCase()` (with no default method configured). -/
def axiosMethod (m : Option String) : String :=
  (match m with
   | some s => if s ≠ "" then s else "get"
   | none => "get").toLower

/-! ### The in-flight registry (`abortControllerMap`) and its operations -/

/-- State of an `AxiosRequest` instance: the `abortControllerMap` (keys in
insertion order, values are controller identities), the set of controllers
whose `abort()` has been called, the `console.warn` log, and a counter
supplying the identity of the next `new AbortController()`. -/
structure Registry where
  map : List (String × Nat)
  aborted : List Nat
  warnings : List String
  nextId : Nat
deriving DecidableEq, Repr

/-- The freshly constructed instance: an empty `Map`. -/
def Registry.init : Registry := ⟨[], [], [], 0⟩

/-- The argument of `cancelRequest`: `url: string | string[]`. -/
inductive UrlArg where
  | one (u : String)
  | many (l : List String)
deriving DecidableEq, Repr

/-- The `Array.isArray(url) ? url : [url]` conversion. -/
def UrlArg.toList : UrlArg → List String
  | .one u => [u]
  | .many l => l

/-- One iteration of the `cancelRequest` loop:
`this.abortControllerMap.get(_url)?.abort();
this.abortControllerMap.delete(_url);`. -/
def cancelOne (st : Registry) (u : String) : Registry :=
  let st1 := match objGet st.map u with
    | some cid => { st with aborted := st.aborted ++ [cid] }
    | none => st
  { st1 with map := objDelete st1.map u }

/-- `cancelRequest(url)`: abort (when present) and delete every listed
key. -/
def cancelRequest (st : Registry) (url : UrlArg) : Registry :=
  url.toList.foldl cancelOne st

/-- `cancelAllRequest()`: abort every stored controller, then clear the
`Map`. -/
def cancelAllRequest (st : Registry) : Registry :=
  { st with aborted := st.aborted ++ st.map.map (·.2), map := [] }

/-- An outgoing request config as the interceptors see it. -/
structure ReqConfig where
  method : Option String
  url : Option String
  params : Option (List (String × JVal))
  data : Option BodyVal
  headers : Option (List (String × String)) := none
  signal : Option Nat := none
deriving DecidableEq, Repr

/-- The global request interceptor of `AxiosRequest`: create a fresh
controller, attach its signal to the config, build the fingerprint, and
either cancel the duplicate already registered under it (via
`cancelRequest`, after a `console.warn`) or store the new controller.  A
`JSON.parse` throw propagates before any registry mutation.  Returns the
updated registry, the config (with the signal attached) and the computed
fingerprint. -/
def dedupRequestStage (st : Registry) (cfg : ReqConfig) :
    Except JsError (Registry × ReqConfig × String) :=
  let controller := st.nextId
  let st := { st with nextId := st.nextId + 1 }
  match buildFingerprint cfg.method cfg.url cfg.params cfg.data with
  | .error e => .error e
  | .ok fp =>
    let cfg := { cfg with signal := some controller }
    if (objGet st.map fp).isSome then
      let st := { st with warnings := st.warnings ++ [fp] }
      .ok (cancelRequest st (.one fp), cfg, fp)
    else
      .ok ({ st with map := objSet st.map fp controller }, cfg, fp)

/-! ### The caller-supplied interceptors installed by `creteRequest`
(`packages/request/src/index.ts`) and their browser-side effects -/

/-- The business payload shape `ServerResult`: `\x7b code, message?, data \x7d`. -/
structure ServerResult where
  code : Int
  message : Option String
  data : Option String
deriving DecidableEq, Repr

/-- A transport response as the response interceptors see it: the parsed
body (`res.data`, absent when the server sent none) and the `res.config`
url the terminal stage reads. -/
structure AxResponse where
  data : Option ServerResult
  configUrl : Option String
deriving DecidableEq, Repr

/-- The browser-side state the interceptors touch: the local-info store
(token storage), the `lang` item of `localStorage`, `window.location`
(`href`, plus the assignments the code performs: `hash = "/login"` or the
delayed `href = "/login"`), the notifier (`message.error`) call log and
the `console.error` log. -/
structure Env where
  store : List (String × String)
  lang : Option String
  href : String
  hash : Option String
  delayedNav : Option String
  notifications : List String
  consoleErrors : List String
deriving DecidableEq, Repr

/-- `getLocalInfo`: read a key from the local-info store. -/
def getLocalInfo (env : Env) (key : String) : Option String :=
  objGet env.store key

/-- `removeLocalInfo`: delete a key from the local-info store. -/
def removeLocalInfo (env : Env) (key : String) : Env :=
  { env with store := objDelete env.store key }

/-- JavaScript `a || b` on an optional string: the fallback is used when
the left side is `undefined` or the empty string (both falsy). -/
def jsOrStr (o : Option String) (fallback : String) : String :=
  match o with
  | some m => if m ≠ "" then m else fallback
  | none => fallback

/-- `handleError(error)` of `index.ts`: log to the console and show
`content || error || "服务器错误"` through the notifier (the `content`
argument is never passed at the two call sites). -/
def handleError (env : Env) (error : Option String) : Env :=
  { env with
    consoleErrors := env.consoleErrors ++ [jsOrStr error "undefined"]
    notifications := env.notifications ++ [jsOrStr error "服务器错误"] }

/-- The message shown on a 401, selected from `localStorage.getItem("lang")`. -/
def unauthorizedMsg (lang : Option String) : String :=
  if lang = some "en" then "Insufficient permissions, please log in again!"
  else "权限不足，请重新登录！"

/-- The caller request interceptor of `creteRequest`: read the token from
local storage (`|| ""`) and, when both the headers object and the token
are truthy, set the `Authorization` header to the token. -/
def requestInterceptors (tokenKey : String) (env : Env) (cfg : ReqConfig) : ReqConfig :=
  let tokenLocal := (getLocalInfo env tokenKey).getD ""
  match cfg.headers with
  | some hs =>
    if tokenLocal ≠ "" then
      { cfg with headers := some (objSet hs "Authorization" tokenLocal) }
    else cfg
  | none => cfg

/-- The caller response interceptor of `creteRequest`: on business code
401 remove the stored token, notify, log, and redirect to `/login`
(hash-based when `window.location.href` contains a `#`, otherwise a
delayed full navigation); on any other non-200 code call `handleError`
with the server message; always return the response unchanged. -/
def responseInterceptors (tokenKey : String) (env : Env) (res : AxResponse) :
    AxResponse × Env :=
  match res.data with
  | some d =>
    if d.code = 401 then
      let msg := unauthorizedMsg env.lang
      let env := removeLocalInfo env tokenKey
      let env := { env with
        notifications := env.notifications ++ [msg]
        consoleErrors := env.consoleErrors ++ [jsOrStr d.message msg] }
      let env :=
        if env.href.contains '#' then { env with hash := some "/login" }
        else { env with delayedNav := some "/login" }
      (res, env)
    else if d.code ≠ 200 then (res, handleError env d.message)
    else (res, env)
  | none => (res, handleError env none)

/-! ### The response promise chain

Axios composes response interceptors by promise chaining:
`promise = promise.then(onFulfilled, onRejected)` for each registered
pair, in registration order.  `creteRequest` registers the caller pair
(`responseInterceptors` / `responseInterceptorsCatch`) first and the
built-in terminal pair last.  Under promise semantics a value RETURNED by
a rejection handler RESOLVES the chain, so the next pair runs its
fulfilled handler on that value. -/

/-- A JavaScript value as it can flow through the tail of the response
chain: `undefined`, the `\x7b\x7d` that `responseInterceptorsCatch` puts into
`err.data`, or a `ServerResult` body. -/
inductive JsVal where
  | undef
  | emptyObj
  | server (r : ServerResult)
deriving DecidableEq, Repr

/-- JavaScript truthiness on such a value (only `undefined` is falsy). -/
def jsValTruthy : JsVal → Bool
  | .undef => false
  | _ => true

/-- A transport-level rejection object as axios delivers it: both network
`AxiosError`s and abort `CanceledError`s carry the request config;
`axios.isCancel` distinguishes them; `data` is the (initially absent)
field the cancel branch assigns. -/
structure AxErr where
  isCancel : Bool
  configUrl : Option String
  data : JsVal := .undef
deriving DecidableEq, Repr

/-- The caller response rejection handler of `creteRequest`: a
cancellation gets `err.data = err.data || \x7b\x7d` and is returned untouched
otherwise; any other transport failure triggers the generic
`handleError("服务器错误！")` notification.  In both branches the handler
RETURNS the error object (it does not rethrow). -/
def responseInterceptorsCatch (env : Env) (e : AxErr) : AxErr × Env :=
  if e.isCancel then
    ({ e with data := if jsValTruthy e.data then e.data else .emptyObj }, env)
  else (e, handleError env (some "服务器错误！"))

/-- The built-in terminal fulfilled handler applied to a response: delete
`res.config.url || ""` from the registry and return `res.data`. -/
def terminalOnResponse (st : Registry) (res : AxResponse) : Registry × JsVal :=
  let url := res.configUrl.getD ""
  ({ st with map := objDelete st.map url },
   match res.data with
   | some r => .server r
   | none => .undef)

/-- The built-in terminal fulfilled handler applied to an error object
that a previous rejection handler returned (so the chain is resolved):
it reads `res.config.url || ""` and returns `res.data`, which for an
error object is the `data` field the cancel branch may have assigned. -/
def terminalOnErrObj (st : Registry) (e : AxErr) : Registry × JsVal :=
  let url := e.configUrl.getD ""
  ({ st with map := objDelete st.map url }, e.data)

/-- How a promise finally settles for the caller. -/
inductive Outcome where
  | resolved (v : JsVal)
  | rejected (v : JsVal)
deriving DecidableEq, Repr

/-- Settlement of the response chain when the transport fulfilled: caller
response interceptor, then the terminal handler. -/
def settleSuccessResponse (tokenKey : String) (st : Registry) (env : Env)
    (res : AxResponse) : Outcome × Registry × Env :=
  let (res2, env2) := responseInterceptors tokenKey env res
  let (st2, v) := terminalOnResponse st res2
  (.resolved v, st2, env2)

/-- Settlement of the response chain when the transport rejected (network
failure or abort): the caller rejection handler RETURNS the error object,
which resolves the chain, so the terminal FULFILLED handler runs on it and
the promise resolves with `err.data`. -/
def settleTransportFailure (st : Registry) (env : Env) (e : AxErr) :
    Outcome × Registry × Env :=
  let (e2, env2) := responseInterceptorsCatch env e
  let (st2, v) := terminalOnErrObj st e2
  (.resolved v, st2, env2)

/-! ### Association-list and registry lemmas -/

theorem objGet_objDelete {α : Type} :
    ∀ (m : List (String × α)) (u k : String),
      objGet (objDelete m u) k = if k = u then none else objGet m k
  | [], u, k => by simp [objGet, objDelete]
  | p :: ps, u, k => by
    by_cases hu : p.1 = u
    · rw [objDelete, if_pos hu, objGet_objDelete ps u k]
      by_cases hk : k = u
      · simp [hk]
      · have : p.1 ≠ k := fun h => hk (h ▸ hu ▸ rfl)
        simp [objGet, hk, this]
    · rw [objDelete, if_neg hu]
      by_cases hk : p.1 = k
      · have : k ≠ u := fun h => hu (h ▸ hk)
        simp [objGet, hk, this]
      · simp only [objGet, if_neg hk]
        exact objGet_objDelete ps u k

theorem objGet_objSet_self {α : Type} :
    ∀ (m : List (String × α)) (k : String) (v : α),
      objGet (objSet m k v) k = some v
  | [], k, v => by simp [objGet, objSet]
  | p :: ps, k, v => by
    by_cases hk : p.1 = k
    · simp [objSet, objGet, hk]
    · simp only [objSet, if_neg hk, objGet, if_neg hk]
      exact objGet_objSet_self ps k v

theorem objGet_mem {α : Type} :
    ∀ {m : List (String × α)} {k : String} {v : α},
      objGet m k = some v → (k, v) ∈ m := by
  intro m
  induction m with
  | nil => intro k v h; simp [objGet] at h
  | cons p ps ih =>
    intro k v h
    by_cases hk : p.1 = k
    · simp only [objGet, if_pos hk] at h
      cases h
      subst hk
      simp
    · simp only [objGet, if_neg hk] at h
      exact List.mem_cons_of_mem p (ih h)

theorem objGet_inj_of_nodup {α : Type} :
    ∀ (m : List (String × α)) (k1 k2 : String) (v : α),
      (m.map Prod.snd).Nodup → objGet m k1 = some v → objGet m k2 = some v →
      k1 = k2
  | [], k1, k2, v, _, h1, _ => by simp [objGet] at h1
  | p :: ps, k1, k2, v, hnd, h1, h2 => by
    rw [List.map_cons, List.nodup_cons] at hnd
    by_cases e1 : p.1 = k1 <;> by_cases e2 : p.1 = k2
    · exact e1.symm.trans e2
    · exfalso
      rw [objGet, if_pos e1] at h1
      rw [objGet, if_neg e2] at h2
      cases h1
      exact hnd.1 (List.mem_map.mpr ⟨_, objGet_mem h2, rfl⟩)
    · exfalso
      rw [objGet, if_neg e1] at h1
      rw [objGet, if_pos e2] at h2
      cases h2
      exact hnd.1 (List.mem_map.mpr ⟨_, objGet_mem h1, rfl⟩)
    · rw [objGet, if_neg e1] at h1
      rw [objGet, if_neg e2] at h2
      exact objGet_inj_of_nodup ps k1 k2 v hnd.2 h1 h2

theorem cancelOne_map (st : Registry) (u : String) :
    (cancelOne st u).map = objDelete st.map u := by
  unfold cancelOne
  cases objGet st.map u <;> rfl

theorem cancelOne_aborted_mem (st : Registry) (u : String) (id : Nat) :
    id ∈ (cancelOne st u).aborted ↔
      id ∈ st.aborted ∨ objGet st.map u = some id := by
  unfold cancelOne
  cases h : objGet st.map u with
  | none => simp
  | some cid => simp [List.mem_append, eq_comm]

theorem foldl_cancelOne_map :
    ∀ (urls : List String) (st : Registry) (k : String),
      objGet (urls.foldl cancelOne st).map k =
        if k ∈ urls then none else objGet st.map k
  | [], st, k => by simp
  | u :: rest, st, k => by
    rw [List.foldl_cons, foldl_cancelOne_map rest (cancelOne st u) k]
    by_cases hr : k ∈ rest
    · simp [hr, List.mem_cons]
    · rw [if_neg hr, cancelOne_map, objGet_objDelete]
      by_cases hu : k = u
      · simp [hu, List.mem_cons]
      · have : k ∉ u :: rest := by
          simp [List.mem_cons, hu, hr]
        simp [hu, this]

theorem foldl_cancelOne_aborted :
    ∀ (urls : List String) (st : Registry) (id : Nat),
      id ∈ (urls.foldl cancelOne st).aborted ↔
        id ∈ st.aborted ∨ ∃ u ∈ urls, objGet st.map u = some id
  | [], st, id => by simp
  | u :: rest, st, id => by
    rw [List.foldl_cons, foldl_cancelOne_aborted rest (cancelOne st u) id]
    rw [cancelOne_aborted_mem]
    constructor
    · rintro ((h | h) | ⟨v, hv, hget⟩)
      · exact Or.inl h
      · exact Or.inr ⟨u, List.mem_cons_self u rest, h⟩
      · rw [cancelOne_map, objGet_objDelete] at hget
        by_cases hvu : v = u
        · rw [if_pos hvu] at hget
          cases hget
        · rw [if_neg hvu] at hget
          exact Or.inr ⟨v, List.mem_cons_of_mem u hv, hget⟩
    · rintro (h | ⟨v, hv, hget⟩)
      · exact Or.inl (Or.inl h)
      · rcases List.mem_cons.mp hv with hvu | hvr
        · exact Or.inl (Or.inr (hvu ▸ hget))
        · by_cases hvu : v = u
          · exact Or.inl (Or.inr (hvu ▸ hget))
          · refine Or.inr ⟨v, hvr, ?_⟩
            rw [cancelOne_map, objGet_objDelete, if_neg hvu]
            exact hget

/-- The fingerprint returned by the de-dup stage is the one
`buildFingerprint` computes from the config alone. -/
theorem dedup_fingerprint_eq {st : Registry} {cfg : ReqConfig}
    {r : Registry × ReqConfig × String}
    (h : dedupRequestStage st cfg = .ok r) :
    buildFingerprint cfg.method cfg.url cfg.params cfg.data = .ok r.2.2 := by
  unfold dedupRequestStage at h
  cases hb : buildFingerprint cfg.method cfg.url cfg.params cfg.data with
  | error e => rw [hb] at h; cases h
  | ok fp =>
    rw [hb] at h
    simp only at h
    split at h <;> cases h <;> rfl

/-- C10: effect and frame of `cancelRequest`.  The hypothesis states the
class invariant that controllers are owned by a single `Map` entry
(each `new AbortController()` is stored at most once). -/
theorem cancelRequest_spec (st : Registry) (arg : UrlArg)
    (hids : (st.map.map Prod.snd).Nodup) (k : String) :
    (k ∈ arg.toList →
      objGet (cancelRequest st arg).map k = none ∧
      ∀ id, objGet st.map k = some id → id ∈ (cancelRequest st arg).aborted) ∧
    (k ∉ arg.toList →
      objGet (cancelRequest st arg).map k = objGet st.map k ∧
      ∀ id, objGet st.map k = some id →
        (id ∈ (cancelRequest st arg).aborted ↔ id ∈ st.aborted)) ∧
    (∀ id, id ∈ (cancelRequest st arg).aborted ↔
      id ∈ st.aborted ∨ ∃ u ∈ arg.toList, objGet st.map u = some id) := by
  refine ⟨?_, ?_, ?_⟩
  · intro hk
    refine ⟨?_, ?_⟩
    · rw [cancelRequest, foldl_cancelOne_map, if_pos hk]
    · intro id hid
      rw [cancelRequest, foldl_cancelOne_aborted]
      exact Or.inr ⟨k, hk, hid⟩
  · intro hk
    refine ⟨?_, ?_⟩
    · rw [cancelRequest, foldl_cancelOne_map, if_neg hk]
    · intro id hid
      rw [cancelRequest, foldl_cancelOne_aborted]
      constructor
      · rintro (h | ⟨u, hu, hget⟩)
        · exact h
        · exact absurd (objGet_inj_of_nodup st.map k u id hids hid hget ▸ hu) hk
      · exact Or.inl
  · intro id
    rw [cancelRequest, foldl_cancelOne_aborted]

/-- C10 witness: a registry with entries `a ↦ 0`, `b ↦ 1`; cancelling
`["a", "c"]` removes and aborts exactly `a`, leaving `b` untouched. -/
theorem cancelRequest_spec_witness :
    (("b" ∈ (UrlArg.many ["a", "c"]).toList →
      objGet (cancelRequest ⟨[("a", 0), ("b", 1)], [], [], 2⟩ (.many ["a", "c"])).map "b" = none ∧
      ∀ id, objGet ([("a", 0), ("b", 1)] : List (String × Nat)) "b" = some id →
        id ∈ (cancelRequest ⟨[("a", 0), ("b", 1)], [], [], 2⟩ (.many ["a", "c"])).aborted) ∧
    ("b" ∉ (UrlArg.many ["a", "c"]).toList →
      objGet (cancelRequest ⟨[("a", 0), ("b", 1)], [], [], 2⟩ (.many ["a", "c"])).map "b" =
        objGet ([("a", 0), ("b", 1)] : List (String × Nat)) "b" ∧
      ∀ id, objGet ([("a", 0), ("b", 1)] : List (String × Nat)) "b" = some id →
        (id ∈ (cancelRequest ⟨[("a", 0), ("b", 1)], [], [], 2⟩ (.many ["a", "c"])).aborted ↔
          id ∈ ([] : List Nat))) ∧
    (∀ id, id ∈ (cancelRequest ⟨[("a", 0), ("b", 1)], [], [], 2⟩ (.many ["a", "c"])).aborted ↔
      id ∈ ([] : List Nat) ∨
        ∃ u ∈ (UrlArg.many ["a", "c"]).toList,
          objGet ([("a", 0), ("b", 1)] : List (String × Nat)) u = some id)) :=
  cancelRequest_spec ⟨[("a", 0), ("b", 1)], [], [], 2⟩ (.many ["a", "c"]) (by decide) "b"

/-! ### Shape of the de-dup stage result -/

/-- A nonempty string has positive length. -/
theorem length_pos_of_ne_empty {s : String} (h : s ≠ "") : 0 < s.length := by
  cases s with
  | mk data =>
    cases data with
    | nil => exact absurd rfl h
    | cons c cs => simp [String.length]

/-- When the de-dup stage finds no entry under the fingerprint, it stores
the fresh controller there and attaches its signal to the config. -/
theorem dedup_fresh_insert {st : Registry} {cfg : ReqConfig} {st2 : Registry}
    {cfg2 : ReqConfig} {fp : String}
    (h : dedupRequestStage st cfg = .ok (st2, cfg2, fp))
    (hfresh : objGet st.map fp = none) :
    st2 = { st with map := objSet st.map fp st.nextId, nextId := st.nextId + 1 } ∧
    cfg2 = { cfg with signal := some st.nextId } := by
  unfold dedupRequestStage at h
  cases hb : buildFingerprint cfg.method cfg.url cfg.params cfg.data with
  | error e => rw [hb] at h; cases h
  | ok fp0 =>
    rw [hb] at h
    simp only at h
    split at h
    · cases h
      simp_all
    · cases h
      exact ⟨rfl, rfl⟩

/-- When the de-dup stage finds an entry under the fingerprint, it warns
and runs `cancelRequest` on that single fingerprint. -/
theorem dedup_dup_cancel {st : Registry} {cfg : ReqConfig} {st2 : Registry}
    {cfg2 : ReqConfig} {fp : String} {oldId : Nat}
    (h : dedupRequestStage st cfg = .ok (st2, cfg2, fp))
    (hold : objGet st.map fp = some oldId) :
    st2 = cancelOne
      { st with nextId := st.nextId + 1, warnings := st.warnings ++ [fp] } fp ∧
    cfg2 = { cfg with signal := some st.nextId } := by
  unfold dedupRequestStage at h
  cases hb : buildFingerprint cfg.method cfg.url cfg.params cfg.data with
  | error e => rw [hb] at h; cases h
  | ok fp0 =>
    rw [hb] at h
    simp only at h
    split at h
    · cases h
      exact ⟨rfl, rfl⟩
    · cases h
      simp_all

/-- The `^url` segment of the fingerprint. -/
def urlSeg : Option String → String
  | some u => if u ≠ "" then "^" ++ u else ""
  | none => ""

/-- The `&key=value` segments of the fingerprint. -/
def paramSeg : Option (List (String × JVal)) → String
  | some l => appendSegs "&" l ""
  | none => ""

/-- The `#key=value` segments of the fingerprint. -/
def bodySeg (kvs : List (String × JVal)) : String := appendSegs "#" kvs ""

/-- `appendSegs` only extends its accumulator on the right. -/
theorem appendSegs_factor (sep : String) :
    ∀ (l : List (String × JVal)) (acc : String),
      appendSegs sep l acc = acc ++ appendSegs sep l ""
  | [], acc => by simp [appendSegs, String.append_empty]
  | kv :: t, acc => by
    show appendSegs sep t (acc ++ sep ++ kv.1 ++ "=" ++ jvalToString kv.2) =
      acc ++ appendSegs sep t ("" ++ sep ++ kv.1 ++ "=" ++ jvalToString kv.2)
    rw [appendSegs_factor sep t (acc ++ sep ++ kv.1 ++ "=" ++ jvalToString kv.2),
      appendSegs_factor sep t ("" ++ sep ++ kv.1 ++ "=" ++ jvalToString kv.2)]
    simp [String.empty_append, String.append_assoc]

/-- The url statement appends the url segment. -/
theorem urlStage_eq (u : Option String) (fp : String) :
    urlStage u fp = fp ++ urlSeg u := by
  cases u with
  | none => exact (String.append_empty fp).symm
  | some u0 =>
    simp only [urlStage]
    by_cases hu : u0 = ""
    · rw [if_neg (fun hne => hne hu)]
      subst hu
      have hseg : urlSeg (some "") = "" := by simp [urlSeg]
      rw [hseg, String.append_empty]
    · rw [if_pos hu]
      have hseg : urlSeg (some u0) = "^" ++ u0 := by simp [urlSeg, hu]
      rw [hseg, String.append_assoc]

/-- The params statement appends the parameter segments. -/
theorem paramStage_eq (ps : Option (List (String × JVal))) (fp : String) :
    paramStage ps fp = fp ++ paramSeg ps := by
  cases ps with
  | none => exact (String.append_empty fp).symm
  | some l =>
    simp only [paramStage]
    rw [appendSegs_factor]
    rfl

/-- Closed form of `buildFingerprint`: the body statement applied to the
concatenation of method, url segment and parameter segments. -/
theorem buildFingerprint_eq (method u : Option String)
    (ps : Option (List (String × JVal))) (data : Option BodyVal) :
    buildFingerprint method u ps data =
      bodyStage data (method.getD "" ++ urlSeg u ++ paramSeg ps) := by
  rw [buildFingerprint, urlStage_eq, paramStage_eq]

/-- Successful fingerprint construction with a parsed body decomposes
into the method, the url segment, the parameter segments and the body
segments, in this order. -/
theorem buildFingerprint_ok_decomp {method u : Option String}
    {ps : Option (List (String × JVal))} {s : String}
    {kvs : List (String × JVal)}
    (hb : isBraceWrapped s = true) (hp : jsonParse s = some kvs) :
    buildFingerprint method u ps (some (.jsStr s)) =
      .ok (method.getD "" ++ urlSeg u ++ paramSeg ps ++ bodySeg kvs) := by
  rw [buildFingerprint_eq]
  simp only [bodyStage, hb, if_true, hp]
  rw [appendSegs_factor]
  rfl

/-- Every successful fingerprint extends `method ++ urlSeg` on the right. -/
theorem buildFingerprint_shape {method u : Option String}
    {ps : Option (List (String × JVal))} {data : Option BodyVal} {fp : String}
    (h : buildFingerprint method u ps data = .ok fp) :
    ∃ tail, fp = method.getD "" ++ urlSeg u ++ tail := by
  rw [buildFingerprint_eq] at h
  cases data with
  | none =>
    simp only [bodyStage] at h
    cases h
    exact ⟨paramSeg ps, rfl⟩
  | some bv =>
    cases bv with
    | jsObj =>
      simp only [bodyStage] at h
      cases h
      exact ⟨paramSeg ps, rfl⟩
    | jsStr s =>
      cases hbw : isBraceWrapped s with
      | true =>
        simp only [bodyStage, hbw, if_true] at h
        cases hp : jsonParse s with
        | none =>
          simp only [hp] at h
          exact Except.noConfusion h
        | some kvs =>
          simp only [hp] at h
          cases h
          refine ⟨paramSeg ps ++ bodySeg kvs, ?_⟩
          rw [appendSegs_factor, String.append_assoc]
          rfl
      | false =>
        simp only [bodyStage, hbw, Bool.false_eq_true, if_false] at h
        cases h
        exact ⟨paramSeg ps, rfl⟩

/-- With a nonempty method the fingerprint is never the bare request url
(`res.config.url || ""`), because it is strictly longer. -/
theorem buildFingerprint_ne_bareUrl {m : String} {u : Option String}
    {ps : Option (List (String × JVal))} {data : Option BodyVal} {fp : String}
    (hm : m ≠ "") (h : buildFingerprint (some m) u ps data = .ok fp) :
    fp ≠ u.getD "" := by
  obtain ⟨tail, htail⟩ := buildFingerprint_shape h
  have hmpos : 0 < m.length := length_pos_of_ne_empty hm
  intro heq
  rw [heq] at htail
  have hlen := congrArg String.length htail
  rw [String.length_append, String.length_append] at hlen
  have hgd : (some m).getD "" = m := rfl
  rw [hgd] at hlen
  cases u with
  | none =>
    have e1 : (Option.getD (none : Option String) "") = "" := rfl
    have e2 : urlSeg none = "" := rfl
    have e3 : ("" : String).length = 0 := rfl
    rw [e1, e2, e3] at hlen
    omega
  | some u0 =>
    by_cases hu : u0 = ""
    · subst hu
      have e1 : (Option.getD (some "") "") = "" := rfl
      have e2 : urlSeg (some "") = "" := by simp [urlSeg]
      have e3 : ("" : String).length = 0 := rfl
      rw [e1, e2, e3] at hlen
      omega
    · have e1 : (Option.getD (some u0) "") = u0 := rfl
      have e2 : urlSeg (some u0) = "^" ++ u0 := by simp [urlSeg, hu]
      rw [e1, e2, String.length_append] at hlen
      have e3 : ("^" : String).length = 1 := rfl
      rw [e3] at hlen
      omega

/-! ### C1: duplicate-request registration -/

/-- The concrete config of the C1/C3 scenarios: a plain `GET /x`. -/
def cfgDup : ReqConfig :=
  { method := some "get", url := some "/x", params := none, data := none }

/-- A registry already holding an in-flight entry for `get^/x`. -/
def regDup : Registry := ⟨[("get^/x", 0)], [], [], 1⟩

/-- C1 counterexample: dispatching `GET /x` while `get^/x` is registered
aborts and removes the old entry, but the fresh controller (id 1, attached
to the new request signal) is NOT stored: afterwards the registry holds
no handle at all for the fingerprint, not exactly one. -/
theorem dedup_duplicate_no_stored_handle_cex :
    dedupRequestStage regDup cfgDup =
      .ok (⟨[], [0], ["get^/x"], 2⟩, { cfgDup with signal := some 1 }, "get^/x") ∧
    objGet ((⟨[], [0], ["get^/x"], 2⟩ : Registry)).map "get^/x" = none ∧
    ((⟨[], [0], ["get^/x"], 2⟩ : Registry)).map = [] := by decide

/-- C1 amended: on dispatch the old entry (if any) is aborted and removed
and a fresh controller is attached to the new request, but the fresh
controller is stored in the registry only when no entry existed; after a
duplicate the registry holds no entry for the fingerprint. -/
theorem dedup_register_amended (st : Registry) (cfg : ReqConfig)
    (st2 : Registry) (cfg2 : ReqConfig) (fp : String)
    (h : dedupRequestStage st cfg = .ok (st2, cfg2, fp)) :
    cfg2.signal = some st.nextId ∧
    (∀ oldId, objGet st.map fp = some oldId →
      oldId ∈ st2.aborted ∧ objGet st2.map fp = none) ∧
    (objGet st.map fp = none → objGet st2.map fp = some st.nextId) := by
  refine ⟨?_, ?_, ?_⟩
  · cases hold : objGet st.map fp with
    | none => rw [(dedup_fresh_insert h hold).2]
    | some oldId => rw [(dedup_dup_cancel h hold).2]
  · intro oldId hold
    obtain ⟨hst2, -⟩ := dedup_dup_cancel h hold
    constructor
    · rw [hst2, cancelOne_aborted_mem]
      exact Or.inr hold
    · rw [hst2, cancelOne_map, objGet_objDelete, if_pos rfl]
  · intro hfresh
    rw [(dedup_fresh_insert h hfresh).1]
    exact objGet_objSet_self st.map fp st.nextId

/-- C1 amended witness: the concrete duplicate dispatch. -/
theorem dedup_register_amended_witness :
    ({ cfgDup with signal := some 1 } : ReqConfig).signal = some regDup.nextId ∧
    (∀ oldId, objGet regDup.map "get^/x" = some oldId →
      oldId ∈ ((⟨[], [0], ["get^/x"], 2⟩ : Registry)).aborted ∧
      objGet ((⟨[], [0], ["get^/x"], 2⟩ : Registry)).map "get^/x" = none) ∧
    (objGet regDup.map "get^/x" = none →
      objGet ((⟨[], [0], ["get^/x"], 2⟩ : Registry)).map "get^/x" = some regDup.nextId) :=
  dedup_register_amended regDup cfgDup ⟨[], [0], ["get^/x"], 2⟩
    { cfgDup with signal := some 1 } "get^/x" (by decide)

/-! ### C3: the terminal stage and registry release -/

/-- C3 counterexample: after registering `GET /x` (entry `get^/x ↦ 0`),
the terminal stage of the response of that request deletes the key `/x`
(`res.config.url`), so the fingerprint entry is still in the registry. -/
theorem terminal_no_release_cex :
    dedupRequestStage Registry.init cfgDup =
      .ok (⟨[("get^/x", 0)], [], [], 1⟩, { cfgDup with signal := some 0 }, "get^/x") ∧
    (terminalOnResponse ⟨[("get^/x", 0)], [], [], 1⟩
      { data := some ⟨200, none, some "ok"⟩, configUrl := cfgDup.url }).1.map =
      [("get^/x", 0)] ∧
    objGet (terminalOnResponse ⟨[("get^/x", 0)], [], [], 1⟩
      { data := some ⟨200, none, some "ok"⟩, configUrl := cfgDup.url }).1.map "get^/x" =
      some 0 := by decide

/-- C3 amended: on normal completion the terminal stage deletes the entry
keyed by the bare `res.config.url`, which (for a nonempty method) never
equals the fingerprint, so the entry registered under that request
fingerprint remains in the registry. -/
theorem terminal_release_amended (st st2 : Registry) (cfg cfg2 : ReqConfig)
    (fp m : String) (d : Option ServerResult)
    (hm : cfg.method = some m) (hmne : m ≠ "")
    (h : dedupRequestStage st cfg = .ok (st2, cfg2, fp))
    (hfresh : objGet st.map fp = none) :
    (terminalOnResponse st2 ⟨d, cfg.url⟩).1.map =
      objDelete st2.map (cfg.url.getD "") ∧
    objGet (terminalOnResponse st2 ⟨d, cfg.url⟩).1.map fp = some st.nextId := by
  have hfp : buildFingerprint cfg.method cfg.url cfg.params cfg.data = .ok fp :=
    dedup_fingerprint_eq h
  rw [hm] at hfp
  have hne : fp ≠ cfg.url.getD "" := buildFingerprint_ne_bareUrl hmne hfp
  refine ⟨rfl, ?_⟩
  show objGet (objDelete st2.map (cfg.url.getD "")) fp = some st.nextId
  rw [objGet_objDelete, if_neg hne, (dedup_fresh_insert h hfresh).1]
  exact objGet_objSet_self st.map fp st.nextId

/-- C3 amended witness: the concrete `GET /x` round trip. -/
theorem terminal_release_amended_witness :
    ((terminalOnResponse ⟨[("get^/x", 0)], [], [], 1⟩ ⟨some ⟨200, none, some "ok"⟩, cfgDup.url⟩).1.map =
      objDelete ((⟨[("get^/x", 0)], [], [], 1⟩ : Registry)).map (cfgDup.url.getD "") ∧
    objGet (terminalOnResponse ⟨[("get^/x", 0)], [], [], 1⟩ ⟨some ⟨200, none, some "ok"⟩, cfgDup.url⟩).1.map "get^/x" =
      some Registry.init.nextId) :=
  terminal_release_amended Registry.init ⟨[("get^/x", 0)], [], [], 1⟩ cfgDup
    { cfgDup with signal := some 0 } "get^/x" "get" (some ⟨200, none, some "ok"⟩)
    (by decide) (by decide) (by decide) (by decide)

/-! ### The settlement of the response chain (C2, C4, C5) -/

/-- A concrete browser environment used by the concrete scenarios: a
stored credential, no `#` in the location. -/
def env0 : Env :=
  { store := [("token", "tok-123")], lang := none, href := "http://site/app",
    hash := none, delayedNav := none, notifications := [], consoleErrors := [] }

/-- The caller response interceptor returns the response itself in every
branch. -/
theorem responseInterceptors_fst (tk : String) (env : Env) (res : AxResponse) :
    (responseInterceptors tk env res).1 = res := by
  cases hd : res.data with
  | none => simp [responseInterceptors, hd]
  | some d =>
    simp only [responseInterceptors, hd]
    split_ifs <;> rfl

/-- C2 (code bug): the rejection handlers return the error object, which
under promise chaining RESOLVES the chain; the terminal fulfilled handler
then returns `err.data`, so a transport failure resolves the caller
promise with `undefined` (after the generic notification) and a
cancellation resolves it with `\x7b\x7d` — neither rejects.  Business
responses do resolve with the `ServerResult`, as the claim states. -/
theorem transport_error_resolves_bug :
    (∀ (st : Registry) (env : Env) (e : AxErr),
      ∃ v, (settleTransportFailure st env e).1 = Outcome.resolved v) ∧
    (settleTransportFailure ⟨[("get^/x", 0)], [], [], 1⟩ env0
      { isCancel := false, configUrl := some "/x" }).1 = .resolved .undef ∧
    (settleTransportFailure ⟨[("get^/x", 0)], [], [], 1⟩ env0
      { isCancel := false, configUrl := some "/x" }).2.2.notifications =
      ["服务器错误！"] ∧
    (settleTransportFailure ⟨[("get^/x", 0)], [], [], 1⟩ env0
      { isCancel := true, configUrl := some "/x" }).1 = .resolved .emptyObj ∧
    (∀ (tokenKey : String) (st : Registry) (env : Env) (res : AxResponse)
      (r : ServerResult), res.data = some r →
      (settleSuccessResponse tokenKey st env res).1 = .resolved (.server r)) := by
  refine ⟨?_, by decide, by decide, by decide, ?_⟩
  · intro st env e
    cases hc : e.isCancel
    · exact ⟨e.data,
        by simp [settleTransportFailure, responseInterceptorsCatch, hc, terminalOnErrObj]⟩
    · exact ⟨if jsValTruthy e.data then e.data else .emptyObj,
        by simp [settleTransportFailure, responseInterceptorsCatch, hc, terminalOnErrObj]⟩
  · intro tokenKey st env res r hd
    rcases hre : responseInterceptors tokenKey env res with ⟨res2, env2⟩
    have hres2 : res2 = res := by
      rw [← responseInterceptors_fst tokenKey env res, hre]
    subst hres2
    simp [settleSuccessResponse, hre, terminalOnResponse, hd]

/-- C4 (code bug): a brace-wrapped body that is not valid JSON makes the
de-dup request stage throw (`JSON.parse` has no surrounding try/catch):
nothing is registered and the pipeline does not proceed. -/
theorem malformed_json_body_throws :
    isBraceWrapped "\x7bx\x7d" = true ∧
    jsonParse "\x7bx\x7d" = none ∧
    buildFingerprint (some "post") (some "/x") none (some (.jsStr "\x7bx\x7d")) =
      .error .syntaxError ∧
    dedupRequestStage Registry.init
      { method := some "post", url := some "/x", params := none,
        data := some (.jsStr "\x7bx\x7d") } = .error .syntaxError := by decide

/-- C5: `cancelAllRequest` empties the registry and aborts every stored
controller; a pending request then rejects with a cancellation, whose
settlement is a resolution (never an unhandled rejection) with no
notification — distinguishable from a generic transport failure, which
adds the generic notification. -/
theorem cancelAllRequest_spec (st st2 : Registry) (env : Env) (e : AxErr)
    (hc : e.isCancel = true) :
    (cancelAllRequest st).map = [] ∧
    (∀ p ∈ st.map, p.2 ∈ (cancelAllRequest st).aborted) ∧
    (∃ v, (settleTransportFailure st2 env e).1 = Outcome.resolved v) ∧
    (settleTransportFailure st2 env e).2.2.notifications = env.notifications ∧
    (settleTransportFailure st2 env { e with isCancel := false }).2.2.notifications =
      env.notifications ++ ["服务器错误！"] := by
  refine ⟨rfl, ?_, ?_, ?_, ?_⟩
  · intro p hp
    show p.2 ∈ st.aborted ++ st.map.map (·.2)
    exact List.mem_append.mpr (Or.inr (List.mem_map.mpr ⟨p, hp, rfl⟩))
  · exact ⟨if jsValTruthy e.data then e.data else .emptyObj,
      by simp [settleTransportFailure, responseInterceptorsCatch, hc, terminalOnErrObj]⟩
  · simp [settleTransportFailure, responseInterceptorsCatch, hc, terminalOnErrObj]
  · simp [settleTransportFailure, responseInterceptorsCatch, terminalOnErrObj,
      handleError, jsOrStr]

/-- C5 witness: one pending `get^/x` entry, a concrete cancellation. -/
theorem cancelAllRequest_spec_witness :
    (cancelAllRequest ⟨[("get^/x", 0)], [], [], 1⟩).map = [] ∧
    (∀ p ∈ ([("get^/x", 0)] : List (String × Nat)),
      p.2 ∈ (cancelAllRequest ⟨[("get^/x", 0)], [], [], 1⟩).aborted) ∧
    (∃ v, (settleTransportFailure ⟨[("get^/x", 0)], [], [], 1⟩ env0
      { isCancel := true, configUrl := some "/x" }).1 = Outcome.resolved v) ∧
    (settleTransportFailure ⟨[("get^/x", 0)], [], [], 1⟩ env0
      { isCancel := true, configUrl := some "/x" }).2.2.notifications =
      env0.notifications ∧
    (settleTransportFailure ⟨[("get^/x", 0)], [], [], 1⟩ env0
      { ({ isCancel := true, configUrl := some "/x" } : AxErr) with
        isCancel := false }).2.2.notifications =
      env0.notifications ++ ["服务器错误！"] :=
  cancelAllRequest_spec ⟨[("get^/x", 0)], [], [], 1⟩ ⟨[("get^/x", 0)], [], [], 1⟩
    env0 { isCancel := true, configUrl := some "/x" } rfl

/-! ### The caller response interceptor (C6, C7) and request interceptor (C9) -/

/-- C6: a business 401 removes the stored credential (the getter then
yields nothing), appends exactly one error notification, redirects to
`/login` (hash-based when the location contains `#`, delayed full
navigation otherwise) and returns the response unchanged. -/
theorem response401_spec (tokenKey : String) (env : Env) (res : AxResponse)
    (d : ServerResult) (hd : res.data = some d) (hc : d.code = 401) :
    (responseInterceptors tokenKey env res).1 = res ∧
    getLocalInfo (responseInterceptors tokenKey env res).2 tokenKey = none ∧
    (responseInterceptors tokenKey env res).2.notifications =
      env.notifications ++ [unauthorizedMsg env.lang] ∧
    (env.href.contains '#' = true →
      (responseInterceptors tokenKey env res).2.hash = some "/login" ∧
      (responseInterceptors tokenKey env res).2.delayedNav = env.delayedNav) ∧
    (env.href.contains '#' = false →
      (responseInterceptors tokenKey env res).2.delayedNav = some "/login" ∧
      (responseInterceptors tokenKey env res).2.hash = env.hash) := by
  cases hh : env.href.contains '#' with
  | false =>
    refine ⟨?_, ?_, ?_, ?_, ?_⟩ <;>
      simp [responseInterceptors, hd, hc, hh, removeLocalInfo, getLocalInfo,
        objGet_objDelete]
  | true =>
    refine ⟨?_, ?_, ?_, ?_, ?_⟩ <;>
      simp [responseInterceptors, hd, hc, hh, removeLocalInfo, getLocalInfo,
        objGet_objDelete]

/-- C6 witness: a concrete 401 against `env0` (no `#` in the location). -/
theorem response401_spec_witness :
    (responseInterceptors "token" env0 ⟨some ⟨401, none, none⟩, some "/user"⟩).1 =
      (⟨some ⟨401, none, none⟩, some "/user"⟩ : AxResponse) ∧
    getLocalInfo (responseInterceptors "token" env0
      ⟨some ⟨401, none, none⟩, some "/user"⟩).2 "token" = none ∧
    (responseInterceptors "token" env0
      ⟨some ⟨401, none, none⟩, some "/user"⟩).2.notifications =
      env0.notifications ++ [unauthorizedMsg env0.lang] ∧
    (env0.href.contains '#' = true →
      (responseInterceptors "token" env0
        ⟨some ⟨401, none, none⟩, some "/user"⟩).2.hash = some "/login" ∧
      (responseInterceptors "token" env0
        ⟨some ⟨401, none, none⟩, some "/user"⟩).2.delayedNav = env0.delayedNav) ∧
    (env0.href.contains '#' = false →
      (responseInterceptors "token" env0
        ⟨some ⟨401, none, none⟩, some "/user"⟩).2.delayedNav = some "/login" ∧
      (responseInterceptors "token" env0
        ⟨some ⟨401, none, none⟩, some "/user"⟩).2.hash = env0.hash) :=
  response401_spec "token" env0 ⟨some ⟨401, none, none⟩, some "/user"⟩
    ⟨401, none, none⟩ rfl rfl

/-- C7: a business code that is neither 200 nor 401 leaves the stored
credential and the location untouched and appends exactly one error
notification, carrying the server message when it is a nonempty string
and the generic fallback otherwise; the response is returned unchanged. -/
theorem response_business_error_spec (tokenKey : String) (env : Env)
    (res : AxResponse) (d : ServerResult) (hd : res.data = some d)
    (h401 : d.code ≠ 401) (h200 : d.code ≠ 200) :
    (responseInterceptors tokenKey env res).1 = res ∧
    (responseInterceptors tokenKey env res).2.store = env.store ∧
    (responseInterceptors tokenKey env res).2.hash = env.hash ∧
    (responseInterceptors tokenKey env res).2.delayedNav = env.delayedNav ∧
    (responseInterceptors tokenKey env res).2.notifications =
      env.notifications ++ [jsOrStr d.message "服务器错误"] ∧
    (∀ m, d.message = some m → m ≠ "" →
      (responseInterceptors tokenKey env res).2.notifications =
        env.notifications ++ [m]) ∧
    (d.message = none →
      (responseInterceptors tokenKey env res).2.notifications =
        env.notifications ++ ["服务器错误"]) := by
  refine ⟨?_, ?_, ?_, ?_, ?_, ?_, ?_⟩ <;>
    simp [responseInterceptors, hd, h401, h200, handleError, jsOrStr]
  · intro m hm hne
    simp [hm, hne]
  · intro hm
    simp [hm]

/-- C7 witness: a concrete 404 with a server message. -/
theorem response_business_error_spec_witness :
    (responseInterceptors "token" env0
      ⟨some ⟨404, some "no such page", none⟩, some "/user"⟩).1 =
      (⟨some ⟨404, some "no such page", none⟩, some "/user"⟩ : AxResponse) ∧
    (responseInterceptors "token" env0
      ⟨some ⟨404, some "no such page", none⟩, some "/user"⟩).2.store = env0.store ∧
    (responseInterceptors "token" env0
      ⟨some ⟨404, some "no such page", none⟩, some "/user"⟩).2.hash = env0.hash ∧
    (responseInterceptors "token" env0
      ⟨some ⟨404, some "no such page", none⟩, some "/user"⟩).2.delayedNav =
      env0.delayedNav ∧
    (responseInterceptors "token" env0
      ⟨some ⟨404, some "no such page", none⟩, some "/user"⟩).2.notifications =
      env0.notifications ++ [jsOrStr (some "no such page") "服务器错误"] ∧
    (∀ m, (some "no such page" : Option String) = some m → m ≠ "" →
      (responseInterceptors "token" env0
        ⟨some ⟨404, some "no such page", none⟩, some "/user"⟩).2.notifications =
        env0.notifications ++ [m]) ∧
    ((some "no such page" : Option String) = none →
      (responseInterceptors "token" env0
        ⟨some ⟨404, some "no such page", none⟩, some "/user"⟩).2.notifications =
        env0.notifications ++ ["服务器错误"]) :=
  response_business_error_spec "token" env0
    ⟨some ⟨404, some "no such page", none⟩, some "/user"⟩
    ⟨404, some "no such page", none⟩ rfl (by decide) (by decide)

/-- C9: with a headers object present, a nonempty stored credential is
written verbatim into the `Authorization` header, and an empty or absent
credential leaves the config (headers included) unchanged. -/
theorem request_auth_header_spec (tokenKey : String) (env : Env)
    (cfg : ReqConfig) (hs : List (String × String)) (hh : cfg.headers = some hs) :
    (∀ t, getLocalInfo env tokenKey = some t → t ≠ "" →
      requestInterceptors tokenKey env cfg =
        { cfg with headers := some (objSet hs "Authorization" t) } ∧
      objGet (objSet hs "Authorization" t) "Authorization" = some t) ∧
    ((getLocalInfo env tokenKey).getD "" = "" →
      requestInterceptors tokenKey env cfg = cfg) := by
  constructor
  · intro t ht hne
    constructor
    · simp [requestInterceptors, hh, ht, hne]
    · exact objGet_objSet_self hs "Authorization" t
  · intro hempty
    simp [requestInterceptors, hh, hempty]

/-- C9 witness: `env0` stores `tok-123`; the header is set on a config
with an empty headers object. -/
theorem request_auth_header_spec_witness :
    (∀ t, getLocalInfo env0 "token" = some t → t ≠ "" →
      requestInterceptors "token" env0
        { method := some "get", url := some "/x", params := none, data := none,
          headers := some [] } =
        { method := some "get", url := some "/x", params := none, data := none,
          headers := some (objSet [] "Authorization" t) } ∧
      objGet (objSet [] "Authorization" t) "Authorization" = some t) ∧
    ((getLocalInfo env0 "token").getD "" = "" →
      requestInterceptors "token" env0
        { method := some "get", url := some "/x", params := none, data := none,
          headers := some [] } =
        { method := some "get", url := some "/x", params := none, data := none,
          headers := some [] }) :=
  request_auth_header_spec "token" env0
    { method := some "get", url := some "/x", params := none, data := none,
      headers := some [] } [] rfl

/-! ### C8: fingerprint determinism and structure -/

/-- C8: the fingerprint of a request with a parsed JSON body is the
lowercased method (axios lowercases the method before any interceptor
runs), then the url segment, then one `&key=value` per query parameter in
iteration order, then one `#key=value` per top-level body key; and the
fingerprint computed by the de-dup stage depends only on the config,
never on the registry state, so identical calls fingerprint identically. -/
theorem fingerprint_spec (m : String) (u : Option String)
    (ps : Option (List (String × JVal))) (s : String)
    (kvs : List (String × JVal))
    (hb : isBraceWrapped s = true) (hp : jsonParse s = some kvs) :
    buildFingerprint (some (axiosMethod (some m))) u ps (some (.jsStr s)) =
      .ok (axiosMethod (some m) ++ urlSeg u ++ paramSeg ps ++ bodySeg kvs) ∧
    axiosMethod (some m) = (jsOrStr (some m) "get").toLower ∧
    (∀ (st1 st2 : Registry) (cfg : ReqConfig) (r1 r2 : Registry × ReqConfig × String),
      dedupRequestStage st1 cfg = .ok r1 → dedupRequestStage st2 cfg = .ok r2 →
      r1.2.2 = r2.2.2) := by
  refine ⟨buildFingerprint_ok_decomp hb hp, rfl, ?_⟩
  intro st1 st2 cfg r1 r2 h1 h2
  have e1 := dedup_fingerprint_eq h1
  have e2 := dedup_fingerprint_eq h2
  rw [e1] at e2
  exact Except.ok.inj e2

/-- C8 witness: the example from the spec, `POST /x` with body
`\x7b"a":1,"b":2\x7d`. -/
theorem fingerprint_spec_witness :
    (buildFingerprint (some (axiosMethod (some "POST"))) (some "/x") none
      (some (.jsStr "\x7b\"a\":1,\"b\":2\x7d")) =
      .ok (axiosMethod (some "POST") ++ urlSeg (some "/x") ++ paramSeg none ++
        bodySeg [("a", .num 1), ("b", .num 2)]) ∧
    axiosMethod (some "POST") = (jsOrStr (some "POST") "get").toLower ∧
    (∀ (st1 st2 : Registry) (cfg : ReqConfig) (r1 r2 : Registry × ReqConfig × String),
      dedupRequestStage st1 cfg = .ok r1 → dedupRequestStage st2 cfg = .ok r2 →
      r1.2.2 = r2.2.2)) :=
  fingerprint_spec "POST" (some "/x") none "\x7b\"a\":1,\"b\":2\x7d"
    [("a", .num 1), ("b", .num 2)] (by decide) (by decide)

end ReqClient
